import Mathlib

/-
Verification of the incremental-decoding adapter and training-benchmark driver of the
alpa `examples/opt` scripts (`examples/opt/model/test_text_gen.py` and
`examples/opt/opt.py`).

The Python code is shallowly embedded: tensors of token ids are modelled as `List Nat`
(the batch dimension, always 1 in the script, is dropped), opaque tensor types (logits,
caches, hidden states, attentions) are type parameters, closures with `nonlocal` state
are functions with the state threaded explicitly, and Python exceptions are modelled by
`Option`/`Except` results.
-/

/-- A Python exception raised by the embedded code. -/
inductive PyError where
  | notImplementedError
  | indexError
  deriving DecidableEq

/-- Embeds the `InferenceFuncOutput` dataclass of `test_text_gen.py`: the record returned
by every backend inference function, with fields `logits`, `past_key_values`,
`hidden_states` and `attentions` (the last two default to `None`). `L` is the type of
logits tensors, `C` the type of the opaque incremental cache, `H` and `A` the types of
hidden states and attentions. -/
structure InferenceFuncOutput (L C H A : Type) where
  logits : L
  past_key_values : C
  hidden_states : Option H := none
  attentions : Option A := none

variable {α β L C H A R : Type}

/-- The type of a backend inference function (`inference_func` built by `get_model`): it
receives one single-token slice of input ids and an optional incremental cache (`None` on
the first call) and returns an `InferenceFuncOutput`. -/
abbrev InferenceFunc (L C H A : Type) := Nat → Option C → InferenceFuncOutput L C H A

/-- The sequence of `ret` values produced by the `for` loop of
`WrappedInferenceFunc.__call__` (lines 93-98): iteration `i` invokes the backend `f` on
the single token `input_ids[:, i:i+1]` and the cache threaded from the previous
iteration (`past_key_values = ret.past_key_values`). -/
def callSteps (f : InferenceFunc L C H A) :
    List Nat → Option C → List (InferenceFuncOutput L C H A)
  | [], _ => []
  | t :: rest, past =>
    let ret := f t past
    ret :: callSteps f rest (some ret.past_key_values)

/-- The argument pairs (single token, cache) that the loop of
`WrappedInferenceFunc.__call__` passes to the backend `f`, in invocation order. -/
def callArgs (f : InferenceFunc L C H A) : List Nat → Option C → List (Nat × Option C)
  | [], _ => []
  | t :: rest, past => (t, past) :: callArgs f rest (some (f t past).past_key_values)

/-- The value of the loop variable `past_key_values` of `WrappedInferenceFunc.__call__`
after processing the given tokens: the cache threaded through the successive backend
calls (unchanged when there are no tokens). -/
def cacheAfter (f : InferenceFunc L C H A) : List Nat → Option C → Option C
  | [], past => past
  | t :: rest, past => cacheAfter f rest (some (f t past).past_key_values)

namespace WrappedInferenceFunc

/-- Embeds `WrappedInferenceFunc.__call__` (lines 87-99): iterates over every position of
`input_ids`, invoking `f` once per position on that single token and the threaded cache,
and returns the `ret` of the last iteration. On an empty input the loop body never runs
and the `return ret` line raises `UnboundLocalError`; that failure is modelled by
`none`. -/
def call (f : InferenceFunc L C H A) :
    List Nat → Option C → Option (InferenceFuncOutput L C H A)
  | [], _ => none
  | [t], past => some (f t past)
  | t :: t2 :: rest, past => call f (t2 :: rest) (some (f t past).past_key_values)

/-- Embeds `WrappedInferenceFunc.forward` (lines 74-75): `raise NotImplementedError()`,
for every input. -/
def forward (attention_mask : α) : Except PyError β :=
  Except.error PyError.notImplementedError

/-- The dict returned by `prepare_inputs_for_generation`. -/
structure PreparedInputs (C : Type) where
  input_ids : List Nat
  past_key_values : Option C

/-- Python truthiness of the optional `past` argument (`if past:`): `None` is falsy and a
present cache `c` is as truthy as the object `c` itself (given by `truthy`; e.g. an empty
tuple would be falsy). -/
def pyTruthy (truthy : C → Bool) : Option C → Bool
  | none => false
  | some c => truthy c

/-- Embeds `WrappedInferenceFunc.prepare_inputs_for_generation` (lines 77-85): when
`past` is truthy, `input_ids` is cut down to its last token (`input_ids[:, -1]`, which
raises `IndexError` on an empty input — the size-0 dimension has no index -1 — modelled
by `Except.error`); otherwise `input_ids` is passed unchanged. `past` becomes the
`past_key_values` field of the returned dict in both returning cases. -/
def prepare_inputs_for_generation (truthy : C → Bool) (input_ids : List Nat)
    (past : Option C) : Except PyError (PreparedInputs C) :=
  if pyTruthy truthy past then
    match input_ids.getLast? with
    | none => Except.error PyError.indexError
    | some t => Except.ok ⟨[t], past⟩
  else
    Except.ok ⟨input_ids, past⟩

end WrappedInferenceFunc

theorem callSteps_length (f : InferenceFunc L C H A) :
    (ts : List Nat) → (past : Option C) → (callSteps f ts past).length = ts.length
  | [], _ => rfl
  | _ :: rest, past => by
    simp only [callSteps, List.length_cons]
    rw [callSteps_length f rest]

theorem callArgs_length (f : InferenceFunc L C H A) :
    (ts : List Nat) → (past : Option C) → (callArgs f ts past).length = ts.length
  | [], _ => rfl
  | _ :: rest, past => by
    simp only [callArgs, List.length_cons]
    rw [callArgs_length f rest]

theorem callArgs_map_fst (f : InferenceFunc L C H A) :
    (ts : List Nat) → (past : Option C) → (callArgs f ts past).map Prod.fst = ts
  | [], _ => rfl
  | t :: rest, past => by
    simp only [callArgs, List.map_cons]
    rw [callArgs_map_fst f rest]

theorem callArgs_map_snd (f : InferenceFunc L C H A) :
    (ts : List Nat) → (past : Option C) →
      (callArgs f ts past).map Prod.snd =
        (past :: (callSteps f ts past).map
          (fun ret => some ret.past_key_values)).take ts.length
  | [], _ => rfl
  | t :: rest, past => by
    simp only [callArgs, callSteps, List.map_cons, List.length_cons, List.take_succ_cons]
    rw [callArgs_map_snd f rest]

/-- `WrappedInferenceFunc.call` returns the last element of the loop's `ret` trace:
coherence of the direct recursion with the step trace `callSteps`. -/
theorem call_eq_last_step (f : InferenceFunc L C H A) :
    (ts : List Nat) → (past : Option C) →
      WrappedInferenceFunc.call f ts past = (callSteps f ts past).getLast?
  | [], _ => rfl
  | [t], _ => rfl
  | t :: t2 :: rest, past => by
    simp only [WrappedInferenceFunc.call, callSteps]
    rw [call_eq_last_step f (t2 :: rest), List.getLast?_cons_cons]
    simp only [callSteps]

/-- Processing one more leading token threads the cache of that token's backend call. -/
theorem call_cons (f : InferenceFunc L C H A) (t : Nat) (rest : List Nat) (past : Option C)
    (h : rest ≠ []) :
    WrappedInferenceFunc.call f (t :: rest) past =
      WrappedInferenceFunc.call f rest (some (f t past).past_key_values) := by
  match rest with
  | [] => exact absurd rfl h
  | t2 :: rest2 => rfl

/-- Claim C1: for every prompt of length N fed to the adapter's call operation with no
existing cache, the backend is invoked exactly N times; the i-th invocation receives
exactly the single token at position i, and the cache arguments are: `none` for the first
invocation, then for each later invocation the cache returned by the previous one. -/
theorem claim_C1_prompt_unrolled (f : InferenceFunc L C H A) (prompt : List Nat) :
    (callArgs f prompt none).length = prompt.length ∧
    (callArgs f prompt none).map Prod.fst = prompt ∧
    (callArgs f prompt none).map Prod.snd =
      (none :: (callSteps f prompt none).map
        (fun ret => some ret.past_key_values)).take prompt.length :=
  ⟨callArgs_length f prompt none, callArgs_map_fst f prompt none,
    callArgs_map_snd f prompt none⟩

/-- Claim C2: for every non-empty input sequence, the adapter's call operation returns
exactly the output produced by the backend invocation for the last position — the last
token applied to the cache threaded through all earlier positions; every earlier
position's output is discarded. -/
theorem claim_C2_returns_last_output (f : InferenceFunc L C H A) (ts : List Nat) (t : Nat)
    (past : Option C) :
    WrappedInferenceFunc.call f (ts ++ [t]) past = some (f t (cacheAfter f ts past)) := by
  induction ts generalizing past with
  | nil => rfl
  | cons a ts ih =>
    rw [List.cons_append, call_cons f a (ts ++ [t]) past (by simp), ih]
    rfl

/-- Claim C7: the adapter's forward path raises `NotImplementedError` unconditionally;
it never returns a value. -/
theorem claim_C7_forward_raises (mask : α) (v : β) :
    @WrappedInferenceFunc.forward α β mask = Except.error PyError.notImplementedError ∧
    @WrappedInferenceFunc.forward α β mask ≠ Except.ok v :=
  ⟨rfl, fun h => Except.noConfusion h⟩

/-- Claim C9: on an input of length 0 the loop body of the adapter's call operation never
executes, the `return ret` line references an unbound variable, and the call fails
(raises) rather than returning logits or a cache. -/
theorem claim_C9_empty_input_fails (f : InferenceFunc L C H A) (past : Option C) :
    WrappedInferenceFunc.call f [] past = none := rfl

/-- Counterexample to claim C10 as stated: on the empty input-id sequence with a truthy
past cache, `input_ids[:, -1]` raises `IndexError`, so `prepare_inputs_for_generation`
returns no result at all — in particular not the input truncated to its last token, and
no result dict carrying the past cache. -/
theorem claim_C10_counterexample :
    WrappedInferenceFunc.prepare_inputs_for_generation (fun _ : Nat => true) []
      (some 3) = Except.error PyError.indexError := rfl

/-- Claim C10 (amended): for every non-empty input-id sequence,
`prepare_inputs_for_generation` returns the input truncated to exactly its last token
when the past cache is truthy and returns the input unchanged when the past cache is
absent; whenever it returns a result (any input), the past cache is passed through
unchanged as the `past_key_values` field; on the empty input with a truthy past it
raises `IndexError` instead of returning. -/
theorem claim_C10_prepare_inputs (truthy : C → Bool) (ids : List Nat) (t : Nat)
    (past : Option C) :
    (WrappedInferenceFunc.pyTruthy truthy past = true →
      WrappedInferenceFunc.prepare_inputs_for_generation truthy (ids ++ [t]) past =
        Except.ok ⟨[t], past⟩) ∧
    (past = none →
      WrappedInferenceFunc.prepare_inputs_for_generation truthy (ids ++ [t]) past =
        Except.ok ⟨ids ++ [t], past⟩) ∧
    (∀ (input_ids : List Nat) (prep : WrappedInferenceFunc.PreparedInputs C),
      WrappedInferenceFunc.prepare_inputs_for_generation truthy input_ids past =
        Except.ok prep → prep.past_key_values = past) ∧
    (WrappedInferenceFunc.pyTruthy truthy past = true →
      WrappedInferenceFunc.prepare_inputs_for_generation truthy [] past =
        Except.error PyError.indexError) := by
  refine ⟨fun htr => ?_, fun hnone => ?_, fun input_ids prep h => ?_, fun htr => ?_⟩
  · simp [WrappedInferenceFunc.prepare_inputs_for_generation, htr]
  · subst hnone
    simp [WrappedInferenceFunc.prepare_inputs_for_generation, WrappedInferenceFunc.pyTruthy]
  · simp only [WrappedInferenceFunc.prepare_inputs_for_generation] at h
    split at h
    · match hl : input_ids.getLast? with
      | none => rw [hl] at h; exact Except.noConfusion h
      | some t' =>
        rw [hl] at h
        cases Except.ok.inj h
        rfl
    · cases Except.ok.inj h
      rfl
  · simp [WrappedInferenceFunc.prepare_inputs_for_generation, htr]

/-- Witness for claim C10 at a concrete input: a truthy past cache truncates `[5, 7]` to
`[7]` and passes the cache through. -/
theorem claim_C10_witness :
    WrappedInferenceFunc.prepare_inputs_for_generation (fun _ : Nat => true) [5, 7]
      (some 3) = Except.ok ⟨[7], some 3⟩ :=
  (claim_C10_prepare_inputs (fun _ : Nat => true) [5] 7 (some 3)).1 rfl

/-- Output record of the distributed pipeshard executable of the `alpa/opt` branch:
`output.logits`, `output.attention_cache`, `output.hidden_states`, `output.attentions`
(lines 173-184 of `test_text_gen.py`). -/
structure ExecOutput (L C H A : Type) where
  logits : L
  attention_cache : C
  hidden_states : Option H := none
  attentions : Option A := none

/-- Embeds the `inference_func` of the `alpa/opt` branch of `get_model` (lines 160-184).
The executable `exe` is opaque; it receives the input token, the position id
(`np.full_like(input_ids_step, step_ct + config.pad + 1)`, modelled by its constant
value) and the cache. The closure's `nonlocal step_ct` is passed in and returned
explicitly: when `past` is `None` the cache is replaced by `init_cache` and the counter
is reset to 0 before the position id is computed, and the counter is incremented by 1 at
the end. The second component of the result is the new `step_ct`, the third records the
position id fed to the executable by this call. -/
def alpaInferenceFunc (pad : Nat) (init_cache : C) (exe : Nat → Nat → C → ExecOutput L C H A)
    (input : Nat) (past : Option C) (step_ct : Nat) :
    InferenceFuncOutput L C H A × Nat × Nat :=
  let reset := match past with
    | none => (init_cache, 0)
    | some c => (c, step_ct)
  let pos := reset.2 + pad + 1
  let output := exe input pos reset.1
  (⟨output.logits, output.attention_cache, output.hidden_states, output.attentions⟩,
    reset.2 + 1, pos)

/-- The position ids fed to the executable by successive invocations of the `alpa/opt`
backend on the given tokens, threading the cache and the step counter from call to call
exactly as the adapter loop does (`past_key_values = ret.past_key_values`). -/
def alpaPositions (pad : Nat) (init_cache : C) (exe : Nat → Nat → C → ExecOutput L C H A) :
    List Nat → Option C → Nat → List Nat
  | [], _, _ => []
  | t :: rest, past, step_ct =>
    let r := alpaInferenceFunc pad init_cache exe t past step_ct
    r.2.2 :: alpaPositions pad init_cache exe rest (some r.1.past_key_values) r.2.1

/-- The value of the `alpa/opt` backend's step counter after running the
`WrappedInferenceFunc.__call__` loop over the given tokens. -/
def alpaStepCtAfter (pad : Nat) (init_cache : C)
    (exe : Nat → Nat → C → ExecOutput L C H A) :
    List Nat → Option C → Nat → Nat
  | [], _, step_ct => step_ct
  | t :: rest, past, step_ct =>
    let r := alpaInferenceFunc pad init_cache exe t past step_ct
    alpaStepCtAfter pad init_cache exe rest (some r.1.past_key_values) r.2.1

theorem alpaPositions_some (pad : Nat) (init_cache : C)
    (exe : Nat → Nat → C → ExecOutput L C H A) :
    (ts : List Nat) → (c : C) → (st : Nat) →
      alpaPositions pad init_cache exe ts (some c) st =
        (List.range ts.length).map (fun k => st + k + pad + 1)
  | [], _, _ => rfl
  | t :: rest, c, st => by
    simp only [alpaPositions, alpaInferenceFunc, List.length_cons, List.range_succ_eq_map,
      List.map_cons, List.map_map]
    rw [List.cons_eq_cons]
    refine ⟨by omega, ?_⟩
    rw [alpaPositions_some pad init_cache exe rest _ (st + 1)]
    refine List.map_congr_left (fun k _ => ?_)
    simp only [Function.comp_apply]
    omega

theorem alpaStepCtAfter_some (pad : Nat) (init_cache : C)
    (exe : Nat → Nat → C → ExecOutput L C H A) :
    (ts : List Nat) → (c : C) → (st : Nat) →
      alpaStepCtAfter pad init_cache exe ts (some c) st = st + ts.length
  | [], _, _ => rfl
  | t :: rest, c, st => by
    simp only [alpaStepCtAfter, alpaInferenceFunc, List.length_cons]
    rw [alpaStepCtAfter_some pad init_cache exe rest _ (st + 1)]
    omega

/-- Claim C3: for the distributed-executable backend, the position id fed to the
executable at step k (counting invocations since the last cache re-initialization)
equals k plus the fixed pad offset `pad + 1` (that is, `config.pad + 1`), for all k; and
an invocation with no cache behaves as if the step counter were reset to 0, whatever its
previous value. -/
theorem claim_C3_position_ids (pad : Nat) (init_cache : C)
    (exe : Nat → Nat → C → ExecOutput L C H A) (inputs : List Nat) (t : Nat) (s0 : Nat) :
    alpaPositions pad init_cache exe inputs none s0 =
      (List.range inputs.length).map (fun k => k + pad + 1) ∧
    alpaInferenceFunc pad init_cache exe t none s0 =
      alpaInferenceFunc pad init_cache exe t none 0 := by
  refine ⟨?_, rfl⟩
  match inputs with
  | [] => rfl
  | t1 :: rest =>
    simp only [alpaPositions, alpaInferenceFunc, List.length_cons, List.range_succ_eq_map,
      List.map_cons, List.map_map]
    rw [List.cons_eq_cons]
    refine ⟨rfl, ?_⟩
    rw [alpaPositions_some pad init_cache exe rest _ 1]
    refine List.map_congr_left (fun k _ => ?_)
    simp only [Function.comp_apply]
    omega

/-- Claim C4: after the adapter's first call (step counter 0 at construction) on a
length-N prompt with no cache, the `alpa/opt` backend's step counter equals N; and every
subsequent single-token call with an existing cache increases it by exactly 1. -/
theorem claim_C4_step_counter (pad : Nat) (init_cache : C)
    (exe : Nat → Nat → C → ExecOutput L C H A) (prompt : List Nat) (t : Nat) (c : C)
    (st : Nat) :
    alpaStepCtAfter pad init_cache exe prompt none 0 = prompt.length ∧
    alpaStepCtAfter pad init_cache exe [t] (some c) st = st + 1 := by
  constructor
  · match prompt with
    | [] => rfl
    | t1 :: rest =>
      simp only [alpaStepCtAfter, alpaInferenceFunc, List.length_cons]
      rw [alpaStepCtAfter_some pad init_cache exe rest _ 1]
      omega
  · exact alpaStepCtAfter_some pad init_cache exe [t] c st

/-- A JAX pytree: a nested container whose leaves are values of type `α` (containers are
modelled as nodes with an ordered list of children). -/
inductive PyTree (α : Type) where
  | leaf (x : α)
  | node (children : List (PyTree α))

mutual

/-- Embeds `jax.tree_map(f, pytree)`: applies `f` to every leaf, preserving structure. -/
def PyTree.map (f : α → β) : PyTree α → PyTree β
  | .leaf x => .leaf (f x)
  | .node cs => .node (PyTree.mapList f cs)

/-- `PyTree.map` over a node's list of children. -/
def PyTree.mapList (f : α → β) : List (PyTree α) → List (PyTree β)
  | [] => []
  | t :: ts => PyTree.map f t :: PyTree.mapList f ts

end

mutual

/-- The leaves of a pytree, in left-to-right order. -/
def PyTree.leaves : PyTree α → List α
  | .leaf x => [x]
  | .node cs => PyTree.leavesList cs

/-- The leaves of a list of pytrees, concatenated in order. -/
def PyTree.leavesList : List (PyTree α) → List α
  | [] => []
  | t :: ts => PyTree.leaves t ++ PyTree.leavesList ts

end

mutual

theorem PyTree.leaves_map (f : α → β) :
    (p : PyTree α) → (p.map f).leaves = p.leaves.map f
  | .leaf x => rfl
  | .node cs => by
    simp only [PyTree.map, PyTree.leaves]
    exact PyTree.leavesList_mapList f cs

theorem PyTree.leavesList_mapList (f : α → β) :
    (cs : List (PyTree α)) →
      PyTree.leavesList (PyTree.mapList f cs) = (PyTree.leavesList cs).map f
  | [] => rfl
  | t :: ts => by
    simp only [PyTree.mapList, PyTree.leavesList, List.map_append]
    rw [PyTree.leaves_map f t, PyTree.leavesList_mapList f ts]

end

/-- A JAX array leaf of the training benchmark's parameter pytree, modelled by its shape;
`ndim` is the length of the shape, as in numpy/JAX. -/
structure JaxArray where
  shape : List Nat
  deriving DecidableEq

/-- The number of dimensions of a parameter tensor (`x.ndim`). -/
def JaxArray.ndim (x : JaxArray) : Nat := x.shape.length

/-- Embeds `weight_decay_mask` from `create_train_state` and `create_train_state_aval`
in `examples/opt/opt.py` (lines 26-28 and 49-51):
`jax.tree_map(lambda x: x.ndim > 1, pytree)`. -/
def weight_decay_mask (pytree : PyTree JaxArray) : PyTree Bool :=
  pytree.map (fun x => decide (x.ndim > 1))

/-- Claim C5: the weight-decay mask maps every parameter tensor of the parameter pytree
to excluded (`false`) if it has exactly 1 dimension and to included (`true`) if it has
more than 1 dimension — leafwise, at every leaf position `i`. -/
theorem claim_C5_weight_decay_mask (p : PyTree JaxArray) (i : Nat) (x : JaxArray)
    (hx : p.leaves[i]? = some x) :
    (x.ndim = 1 → (weight_decay_mask p).leaves[i]? = some false) ∧
    (1 < x.ndim → (weight_decay_mask p).leaves[i]? = some true) := by
  have hmask : (weight_decay_mask p).leaves[i]? = some (decide (x.ndim > 1)) := by
    rw [weight_decay_mask, PyTree.leaves_map, List.getElem?_map, hx]
    rfl
  constructor
  · intro h1
    rw [hmask, h1]
    rfl
  · intro h1
    rw [hmask]
    simp [h1]

/-- Witness for claim C5: in a pytree with a 1-dimensional leaf (shape `[4]`) and a
2-dimensional leaf (shape `[3, 4]`), the mask includes the 2-dimensional leaf. -/
theorem claim_C5_witness :
    (weight_decay_mask (PyTree.node [PyTree.leaf ⟨[4]⟩, PyTree.leaf ⟨[3, 4]⟩])).leaves[1]?
      = some true :=
  (claim_C5_weight_decay_mask (PyTree.node [PyTree.leaf ⟨[4]⟩, PyTree.leaf ⟨[3, 4]⟩]) 1
    ⟨[3, 4]⟩ rfl).2 (by decide)

/-- A torch tensor of the `facebook/opt` past cache, modelled by its shape. -/
structure TorchTensor where
  shape : List Nat
  deriving DecidableEq

/-- The `facebook/opt` past cache: one `(key, value)` tensor pair per decoder layer. -/
abbrev OptCache := List (TorchTensor × TorchTensor)

/-- Embeds `past_key_values[0][0].shape[2]` (line 130 of `test_text_gen.py`): the cache
length read from the first layer's key tensor; `none` models the `IndexError` on a
malformed cache. -/
def optPastLength (past : OptCache) : Option Nat :=
  match past with
  | [] => none
  | kv :: _ => kv.1.shape[2]?

/-- `torch.ones((r, c))`, modelled as `r` rows of `c` ones. -/
def torchOnes (r c : Nat) : List (List Nat) :=
  List.replicate r (List.replicate c 1)

/-- Embeds the attention-mask computation of the `facebook/opt` `inference_func` (lines
127-131 of `test_text_gen.py`): the mask passed to the model is `None` when
`past_key_values` is `None`, and otherwise the all-ones tensor
`torch.ones((input_ids.shape[0], past_length + 1))` where `past_length` is read from the
cache; `Except.error` models the crash on a malformed cache. -/
def optAttentionMask (batch : Nat) (past : Option OptCache) :
    Except PyError (Option (List (List Nat))) :=
  match past with
  | none => Except.ok none
  | some c =>
    match optPastLength c with
    | none => Except.error PyError.indexError
    | some past_length => Except.ok (some (torchOnes batch (past_length + 1)))

/-- Counterexample to claim C6 as stated: at a step with no cache (the first backend
invocation of a generation), the mask passed to the model is `None`; it is not an
all-ones tensor of shape batch × (cache length + 1) for any cache length. -/
theorem claim_C6_counterexample :
    ¬ ∃ n, optAttentionMask 1 none = Except.ok (some (torchOnes 1 (n + 1))) := by
  rintro ⟨n, h⟩
  exact Option.noConfusion (Except.ok.inj h)

/-- Claim C6 (amended): at every step where a past cache is present (its first layer's
key tensor having a cache length at shape index 2), the mask passed to the model is the
all-ones tensor of shape batch × (cache length + 1): it has `batch` rows, every row has
length `cache length + 1`, and every entry is 1. At a step with no cache the mask passed
is `None`. -/
theorem claim_C6_attention_mask (batch : Nat) (kv : TorchTensor × TorchTensor)
    (rest : OptCache) (n : Nat) (hshape : kv.1.shape[2]? = some n) :
    optAttentionMask batch (some (kv :: rest)) =
      Except.ok (some (torchOnes batch (n + 1))) ∧
    (torchOnes batch (n + 1)).length = batch ∧
    (∀ row ∈ torchOnes batch (n + 1), row.length = n + 1 ∧ ∀ v ∈ row, v = 1) ∧
    optAttentionMask batch none = Except.ok none := by
  refine ⟨?_, List.length_replicate _ _, fun row hrow => ?_, rfl⟩
  · simp only [optAttentionMask, optPastLength, hshape]
  · rw [List.eq_of_mem_replicate hrow]
    exact ⟨List.length_replicate _ _, fun v hv => List.eq_of_mem_replicate hv⟩

/-- Witness for claim C6: a one-layer cache whose key tensor has shape
`[1, 12, 5, 64]` (cache length 5) yields the all-ones mask of shape 2 × 6. -/
theorem claim_C6_witness :
    optAttentionMask 2 (some [(⟨[1, 12, 5, 64]⟩, ⟨[1, 12, 5, 64]⟩)]) =
      Except.ok (some (torchOnes 2 6)) :=
  (claim_C6_attention_mask 2 (⟨[1, 12, 5, 64]⟩, ⟨[1, 12, 5, 64]⟩) [] 5 rfl).1

/-- Embeds the `gpt` branch `inference_func` of `get_model` (lines 105-117 of
`test_text_gen.py`): it wraps an opaque pretrained `GPT2LMHeadModel` — a pure function
`raw_model` from (token, optional cache) to (logits, new cache) — into an
`InferenceFuncOutput`, passing the model's native cache through unchanged. The closure
captures no mutable state. -/
def gptInferenceFunc (raw_model : Nat → Option C → L × C) : InferenceFunc L C H A :=
  fun input past =>
    let out := raw_model input past
    ⟨out.1, out.2, none, none⟩

/-- Abstract model of the external HuggingFace sampling driver invoked by
`model.generate(..., do_sample=True)` (an external dependency of this repository, used
as an opaque service). Starting from the prompt and no cache, while fuel remains it
builds the step inputs with `prepare_inputs_for_generation`, runs the adapter
`WrappedInferenceFunc.call`, draws the next token from the returned logits with the
opaque sampler `sample` (threading the torch global RNG state, of abstract type `R`),
appends it and continues with the returned cache. An error raised by input preparation
or by the adapter call aborts the run. -/
def generateSampled (truthy : C → Bool) (sample : R → L → Nat × R)
    (f : InferenceFunc L C H A) :
    Nat → List Nat → Option C → R → List Nat
  | 0, ids, _, _ => ids
  | fuel + 1, ids, past, rng =>
    match WrappedInferenceFunc.prepare_inputs_for_generation truthy ids past with
    | Except.error _ => ids
    | Except.ok prep =>
      match WrappedInferenceFunc.call f prep.input_ids prep.past_key_values with
      | none => ids
      | some ret =>
        let drawn := sample rng ret.logits
        generateSampled truthy sample f fuel (ids ++ [drawn.1])
          (some ret.past_key_values) drawn.2

/-- One iteration of the benchmark prompt loop (lines 210-219 of `test_text_gen.py`):
`torch.manual_seed(8)` replaces the torch global RNG state — whatever state
`rng_before` was left behind by earlier work — with the state determined by the integer
seed (`seed_state seed`), and then `model.generate` produces the token sequence. -/
def promptIteration (truthy : C → Bool) (sample : R → L → Nat × R)
    (f : InferenceFunc L C H A) (seed_state : Nat → R) (seed max_length : Nat)
    (prompt : List Nat) (rng_before : R) : List Nat :=
  generateSampled truthy sample f (max_length - prompt.length) prompt none
    (seed_state seed)

/-- Claim C8: with the plain (gpt) backend, two runs of generation with an identical
seed and an identical prompt produce identical generated token sequences: the outcome
does not depend on the RNG state left behind before the run, because
`torch.manual_seed` replaces that state with one determined by the seed and the gpt
backend captures no mutable state. -/
theorem claim_C8_seed_determinism (truthy : C → Bool) (sample : R → L → Nat × R)
    (raw_model : Nat → Option C → L × C) (seed_state : Nat → R) (seed max_length : Nat)
    (prompt : List Nat) (r1 r2 : R) :
    promptIteration truthy sample
        (gptInferenceFunc raw_model : InferenceFunc L C Unit Unit)
        seed_state seed max_length prompt r1 =
      promptIteration truthy sample
        (gptInferenceFunc raw_model : InferenceFunc L C Unit Unit)
        seed_state seed max_length prompt r2 := rfl
